/-
Verification of the deep-research-agent pipeline.

Shallow embedding of the repository sources:
  * research_agent.py : data model, page fetcher, angle worker, orchestrator
  * agent.py          : report schema and model-name configuration
  * app.py            : report_to_markdown renderer

LLM calls, web search and page fetches are external effects; they are
modelled as oracle functions collected in an `Env` record.  The outcome of
each fallible call is an `Except String` value.  The completion order of the
concurrently gathered worker tasks is modelled by an explicit schedule
(a list of task indices); `asyncio.gather` returns results in task order
and propagates the first error in completion order, which the `gather`
function below mirrors.
-/
import Mathlib

set_option maxHeartbeats 1000000

/-- Python string slicing s[:n] : the first n characters of s. -/
def stringTake (s : String) (n : Nat) : String := ⟨s.data.take n⟩

-- Data model (research_agent.py, class definitions)

/-- Literal type of QueryClassification.input_type. -/
inductive InputType where
  | ticker
  | general
deriving DecidableEq

/-- Rendering of the Literal value inside Python f-strings. -/
def InputType.str : InputType → String
  | .ticker => "ticker"
  | .general => "general"

/-- research_agent.py class QueryClassification. -/
structure QueryClassification where
  input_type : InputType
  resolved_name : String
  context : String
deriving DecidableEq

/-- research_agent.py class ResearchAngle. -/
structure ResearchAngle where
  angle : String
  keywords : List String
  description : String
deriving DecidableEq

/-- research_agent.py class ResearchPlan (field angles). -/
structure ResearchPlan where
  angles : List ResearchAngle
deriving DecidableEq

/-- Pydantic validation of ResearchPlan: the field
`angles: List[ResearchAngle] = Field(max_length=4, min_length=3)` is
rejected at model-validation time when the list length is outside 3..4. -/
def ResearchPlan.validate (angles : List ResearchAngle) : Except String ResearchPlan :=
  if angles.length < 3 then Except.error "List should have at least 3 items"
  else if 4 < angles.length then Except.error "List should have at most 4 items"
  else Except.ok ⟨angles⟩

/-- research_agent.py class SearchResult. -/
structure SearchResult where
  title : String
  url : String
  snippet : String
deriving DecidableEq

/-- research_agent.py class ResearchFinding. -/
structure ResearchFinding where
  claim : String
  source_title : String
  source_url : String
  evidence : String
deriving DecidableEq

/-- research_agent.py class SectionFindings. -/
structure SectionFindings where
  angle : String
  summary : String
  findings : List ResearchFinding
deriving DecidableEq

-- Page fetcher (research_agent.py, fetch_page_content)

/-- Outcome of the HTTP GET performed by fetch_page_content: either a
response with a status code and a body, or a raised exception
(network failure, timeout, decode error). -/
inductive HttpOutcome where
  | response (status : Nat) (body : String)
  | failure
deriving DecidableEq

/-- research_agent.py fetch_page_content.  The BeautifulSoup step
(strip script/style tags, extract plain text) is abstracted as the total
function `extractText`; the try/except wrapper maps every raised exception
to the empty string, a non-200 status returns the empty string, and the
extracted text is truncated to 5000 characters. -/
def fetch_page_content (extractText : String → String) (outcome : HttpOutcome) : String :=
  match outcome with
  | .response status body =>
      if status = 200 then stringTake (extractText body) 5000 else ""
  | .failure => ""

-- Environment of external effects

/-- Oracles for the external effects of the pipeline: the four structured
LLM calls (classifier, planner raw output, worker, writer), the DuckDuckGo
search, and the page fetch (which is total by fetch_page_content). -/
structure Env where
  classify : String → Except String QueryClassification
  planRaw : String → Except String (List ResearchAngle)
  workerLLM : String → Except String SectionFindings
  write : String → Except String String
  search : String → Nat → List SearchResult
  fetch : String → String

-- Angle worker (research_agent.py, run_worker)

/-- One per-source block of the worker prompt context:
"Source: {title}\nURL: {url}\n\nContent:\n{content[:2000]}\n---\n". -/
def sourceBlock (content : String) (r : SearchResult) : String :=
  "Source: " ++ r.title ++ "\nURL: " ++ r.url ++ "\n\nContent:\n"
    ++ stringTake content 2000 ++ "\n---\n"

/-- Observable intermediate data of one run_worker call. -/
structure WorkerTrace where
  searchQuery : String
  maxResults : Nat
  results : List SearchResult
  findings_context : String
  prompt : String

/-- research_agent.py run_worker: search for resolved_name + angle title
with max_results=3, fetch each result, accumulate the per-source blocks,
then make exactly one worker-LLM call on the assembled prompt. -/
def run_worker (env : Env) (angle : ResearchAngle) (classification : QueryClassification) :
    WorkerTrace × Except String SectionFindings :=
  let query := classification.resolved_name ++ " " ++ angle.angle
  let results := env.search query 3
  let findings_context :=
    results.foldl (fun acc r => acc ++ sourceBlock (env.fetch r.url) r) ""
  let prompt := "Topic: " ++ classification.resolved_name ++ "\nAngle: " ++ angle.angle
    ++ "\nDescription: " ++ angle.description ++ "\n\nSearch Content:\n" ++ findings_context
  (⟨query, 3, results, findings_context, prompt⟩, env.workerLLM prompt)

-- Configuration (research_agent.py line 91 and agent.py line 13)

/-- research_agent.py: model_name = os.getenv("MODEL_NAME", "openai:gpt-5-mini").
The environment is modelled as a map from variable names to optional values. -/
def model_name (getenv : String → Option String) : String :=
  (getenv "MODEL_NAME").getD "openai:gpt-5-mini"

/-- agent.py: MODEL_NAME = os.getenv("OPENAI_MODEL", "openai:gpt-5-mini"). -/
def MODEL_NAME (getenv : String → Option String) : String :=
  (getenv "OPENAI_MODEL").getD "openai:gpt-5-mini"

-- Orchestrator (research_agent.py, run_research)

/-- Status string yielded after classification. -/
def classYield (c : QueryClassification) : String :=
  "✅ Type: " ++ c.input_type.str ++ ", Resolved: " ++ c.resolved_name

/-- Discovery search query: resolved_name followed by the context. -/
def discoveryQuery (c : QueryClassification) : String :=
  c.resolved_name ++ " " ++ c.context

/-- Discovery context string passed to the planner:
newline-joined "{title} ({url}): {snippet}" lines. -/
def discoveryContext (env : Env) (c : QueryClassification) : String :=
  String.intercalate "\n"
    ((env.search (discoveryQuery c) 3).map
      (fun r => r.title ++ " (" ++ r.url ++ "): " ++ r.snippet))

/-- Prompt handed to the planner agent. -/
def plannerPrompt (env : Env) (c : QueryClassification) : String :=
  "Topic: " ++ c.resolved_name ++ "\nContext: " ++ discoveryContext env c

/-- The planner stage: the planner-LLM call followed by pydantic
validation of the ResearchPlan schema; either failure aborts the stage. -/
def planStep (env : Env) (c : QueryClassification) : Except String ResearchPlan :=
  match env.planRaw (plannerPrompt env c) with
  | Except.error e => Except.error e
  | Except.ok raw => ResearchPlan.validate raw

/-- One line of the synthesis document per finding:
"- {claim} (Source: {source_title}, URL: {source_url})\n". -/
def findingLine (f : ResearchFinding) : String :=
  "- " ++ f.claim ++ " (Source: " ++ f.source_title ++ ", URL: " ++ f.source_url ++ ")\n"

/-- The block that one section contributes to the synthesis document. -/
def sectionBlock (s : SectionFindings) : String :=
  "## Angle: " ++ s.angle ++ "\n" ++ s.summary ++ "\n"
    ++ String.join (s.findings.map findingLine) ++ "\n"

/-- The synthesis document handed to the writer agent, accumulated exactly
as the nested loops of run_research accumulate synthesis_input. -/
def synthesisInput (c : QueryClassification) (sections : List SectionFindings) : String :=
  sections.foldl
    (fun acc s =>
      (s.findings.foldl (fun acc2 f => acc2 ++ findingLine f)
        (acc ++ "## Angle: " ++ s.angle ++ "\n" ++ s.summary ++ "\n")) ++ "\n")
    ("Topic: " ++ c.resolved_name ++ "\n\n")

/-- Join of a batch of Except values in task order: ok with the list of
results when all are ok, otherwise the first error in task order. -/
def collect {α : Type} : List (Except String α) → Except String (List α)
  | [] => Except.ok []
  | Except.error e :: _ => Except.error e
  | Except.ok a :: rest =>
      match collect rest with
      | Except.error e => Except.error e
      | Except.ok l => Except.ok (a :: l)

/-- The first error in completion order (the schedule lists task indices in
the order the tasks finish). -/
def firstErr {α : Type} (outcomes : List (Except String α)) :
    List Nat → Option String
  | [] => none
  | i :: rest =>
      match outcomes[i]? with
      | some (Except.error e) => some e
      | _ => firstErr outcomes rest

/-- asyncio.gather over the worker tasks: results in task order when every
task succeeds (independent of completion order); otherwise the error of the
first task to fail in completion order (falling back to the task-order
first error for schedules that miss the faulting task). -/
def gather {α : Type} (outcomes : List (Except String α)) (sched : List Nat) :
    Except String (List α) :=
  match collect outcomes with
  | Except.ok l => Except.ok l
  | Except.error e => Except.error ((firstErr outcomes sched).getD e)

/-- Observable events of one orchestrator run, in chronological order. -/
inductive Ev where
  | classifierCall
  | searchCall (query : String) (maxResults : Nat)
  | plannerCall (prompt : String)
  | workerScheduled (angleTitle : String)
  | workerCompleted (i : Nat)
  | writerCall (input : String)
deriving DecidableEq

/-- Status strings yielded while the worker tasks are created, one per
angle in plan order. -/
def deepDiveYields (plan : ResearchPlan) : List String :=
  plan.angles.map (fun a => "🕵️ Starting deep dive for: " ++ a.angle ++ "...")

/-- Scheduling events: one task per angle, created in plan order. -/
def scheduledEvents (plan : ResearchPlan) : List Ev :=
  plan.angles.map (fun a => Ev.workerScheduled a.angle)

/-- The outcome of every worker task, in plan (= task) order. -/
def workerOutcomes (env : Env) (plan : ResearchPlan) (c : QueryClassification) :
    List (Except String SectionFindings) :=
  plan.angles.map (fun a => (run_worker env a c).2)

/-- Completion events in completion order; when a task faults, gather
re-raises at that point, so later completions are not observed. -/
def completedEvents (outcomes : List (Except String SectionFindings)) :
    List Nat → List Ev
  | [] => []
  | i :: rest =>
      match outcomes[i]? with
      | some (Except.error _) => [Ev.workerCompleted i]
      | _ => Ev.workerCompleted i :: completedEvents outcomes rest

/-- research_agent.py run_research.  The async generator is modelled as a
function of the oracle environment, the worker completion schedule and the
user query, returning the list of yielded status strings (the final report
is the last yield on success), the chronological event list, and the final
report or the propagated error. -/
def run_research (env : Env) (sched : List Nat) (q : String) :
    List String × List Ev × Except String String :=
  let y0 : List String := ["🔎 Starting research for: " ++ q ++ "..."]
  match env.classify q with
  | Except.error e => (y0, [Ev.classifierCall], Except.error e)
  | Except.ok c =>
    let y2 := y0 ++ [classYield c, "🤔 Generating research plan..."]
    let ev2 := [Ev.classifierCall, Ev.searchCall (discoveryQuery c) 3,
                Ev.plannerCall (plannerPrompt env c)]
    match planStep env c with
    | Except.error e => (y2, ev2, Except.error e)
    | Except.ok plan =>
      let y4 := y2 ++ ("📋 Plan generated with " ++ toString plan.angles.length
          ++ " research angles.") :: deepDiveYields plan
      let ev3 := ev2 ++ scheduledEvents plan
      let outcomes := workerOutcomes env plan c
      match gather outcomes sched with
      | Except.error e =>
          (y4, ev3 ++ completedEvents outcomes sched, Except.error e)
      | Except.ok sections =>
        let y5 := y4 ++ ["📝 Research completed. Synthesizing final report..."]
        let sIn := synthesisInput c sections
        let ev5 := ev3 ++ completedEvents outcomes sched ++ [Ev.writerCall sIn]
        match env.write sIn with
        | Except.error e => (y5, ev5, Except.error e)
        | Except.ok report => (y5 ++ [report], ev5, Except.ok report)

-- Report schema (agent.py) and markdown renderer (app.py)

/-- agent.py class EvidenceCitation. -/
structure EvidenceCitation where
  claim : String
  source_title : String
  url : String
deriving DecidableEq

/-- agent.py class ReportSection. -/
structure ReportSection where
  title : String
  key_findings : List String
  evidence : List EvidenceCitation
deriving DecidableEq

/-- agent.py class DeepResearchReport. -/
structure DeepResearchReport where
  executive_summary : String
  sections : List ReportSection
  risks_uncertainties : List String
  what_to_watch_next : List String
deriving DecidableEq

/-- The lines report_to_markdown appends for one section. -/
def sectionLines (s : ReportSection) : List String :=
  ["## " ++ s.title, ""]
    ++ (if s.key_findings.isEmpty then []
        else ["**Key findings**", ""] ++ s.key_findings.map (fun f => "- " ++ f) ++ [""])
    ++ (if s.evidence.isEmpty then []
        else ["**Evidence**", ""]
          ++ (s.evidence.map (fun e =>
                ["- " ++ e.claim,
                 "  — Source: [" ++ e.source_title ++ "](" ++ e.url ++ ")"])).flatten
          ++ [""])

/-- The full line list accumulated by report_to_markdown before joining. -/
def reportLines (r : DeepResearchReport) : List String :=
  ["## Executive summary", "", r.executive_summary, ""]
    ++ (r.sections.map sectionLines).flatten
    ++ (if r.risks_uncertainties.isEmpty then []
        else ["## Risks and uncertainties", ""]
          ++ r.risks_uncertainties.map (fun x => "- " ++ x) ++ [""])
    ++ (if r.what_to_watch_next.isEmpty then []
        else ["## What to watch next", ""]
          ++ r.what_to_watch_next.map (fun x => "- " ++ x) ++ [""])

/-- app.py report_to_markdown: newline-join of the accumulated lines,
stripped of leading and trailing whitespace. -/
def report_to_markdown (r : DeepResearchReport) : String :=
  (String.intercalate "\n" (reportLines r)).trim

-- Concrete sample data (used to evaluate the definitions on closed inputs)

/-- A sample classification, as the end-to-end NVDA example produces. -/
def clsNV : QueryClassification := ⟨InputType.ticker, "NVIDIA", "semiconductors"⟩

/-- Sample research angle. -/
def angleA : ResearchAngle := ⟨"SWOT Analysis", ["swot"], "strengths and weaknesses"⟩

/-- Sample research angle. -/
def angleB : ResearchAngle := ⟨"Financials", ["revenue"], "recent results"⟩

/-- Sample research angle. -/
def angleC : ResearchAngle := ⟨"Competitors", ["rivals"], "competitive landscape"⟩

/-- Sample worker output. -/
def sampleSection : SectionFindings := ⟨"SWOT Analysis", "a summary", []⟩

/-- Sample search result. -/
def resultA : SearchResult := ⟨"Doc", "http://example.com/a", "snip"⟩

/-- An environment in which every oracle succeeds and the planner returns
three angles; both searches return no results. -/
def envOk : Env :=
  ⟨fun _ => Except.ok clsNV,
   fun _ => Except.ok [angleA, angleB, angleC],
   fun _ => Except.ok sampleSection,
   fun _ => Except.ok "final report",
   fun _ _ => [],
   fun _ => ""⟩

/-- Like envOk, but the planner LLM returns only two angles. -/
def envTwoAngles : Env := { envOk with planRaw := fun _ => Except.ok [angleA, angleB] }

/-- Like envOk, but the classifier LLM call raises. -/
def envClassifyFail : Env := { envOk with classify := fun _ => Except.error "boom" }

/-- Like envOk, but the angle search finds one result (whose fetch yields
the empty string, since fetch is constantly empty). -/
def envEmptyFetch : Env := { envOk with search := fun _ _ => [resultA] }

-- Shapes of the orchestrator run, per branch

/-- Yields up to and including the planning announcement. -/
def yields2 (q : String) (c : QueryClassification) : List String :=
  ["🔎 Starting research for: " ++ q ++ "...", classYield c,
   "🤔 Generating research plan..."]

/-- Events up to and including the planner call. -/
def eventsPre (env : Env) (c : QueryClassification) : List Ev :=
  [Ev.classifierCall, Ev.searchCall (discoveryQuery c) 3,
   Ev.plannerCall (plannerPrompt env c)]

/-- Yields up to and including the per-angle deep-dive announcements. -/
def yields4 (q : String) (c : QueryClassification) (plan : ResearchPlan) : List String :=
  yields2 q c
    ++ ("📋 Plan generated with " ++ toString plan.angles.length
         ++ " research angles.") :: deepDiveYields plan

/-- Yields up to and including the synthesis announcement. -/
def yields5 (q : String) (c : QueryClassification) (plan : ResearchPlan) : List String :=
  yields4 q c plan ++ ["📝 Research completed. Synthesizing final report..."]

/-- Extracts the angle title of a scheduling event. -/
def schedTitle : Ev → Option String
  | Ev.workerScheduled t => some t
  | _ => none

/-- A report with an empty risks list whose only section is titled
"Risks and uncertainties". -/
def badReport : DeepResearchReport :=
  ⟨"A short overview.", [⟨"Risks and uncertainties", [], []⟩], [], []⟩

/-- A report with the usual shape: one ordinary section, a non-empty risks
list and an empty watch list. -/
def goodReport : DeepResearchReport :=
  ⟨"All good.", [⟨"Overview", ["finding one"], []⟩], ["a risk"], []⟩

-- Helper lemmas about string folds

/-- String append is associative (via the underlying character lists). -/
theorem strAppendAssoc (a b c : String) : a ++ b ++ c = a ++ (b ++ c) := by
  apply String.ext
  simp [String.data_append, List.append_assoc]

/-- Folding append over a list starting from acc prepends acc to the join. -/
theorem strJoin_shift (l : List String) :
    ∀ acc : String, List.foldl (fun a b => a ++ b) acc l = acc ++ String.join l := by
  induction l with
  | nil => intro acc; simp [String.join, List.foldl, String.append_empty]
  | cons x xs ih =>
      intro acc
      have hj : String.join (x :: xs) = x ++ String.join xs := by
        show List.foldl (fun a b => a ++ b) ("" ++ x) xs = x ++ String.join xs
        rw [ih ("" ++ x), String.empty_append x]
      show List.foldl (fun a b => a ++ b) (acc ++ x) xs = acc ++ String.join (x :: xs)
      rw [ih (acc ++ x), hj, strAppendAssoc]

/-- String.join distributes over cons. -/
theorem strJoin_cons (x : String) (l : List String) :
    String.join (x :: l) = x ++ String.join l := by
  show List.foldl (fun a b => a ++ b) ("" ++ x) l = x ++ String.join l
  rw [strJoin_shift l ("" ++ x), String.empty_append x]

/-- An accumulating fold of appended pieces equals acc followed by the
join of the mapped pieces. -/
theorem foldl_append_eq_join {α : Type} (g : α → String) (l : List α) :
    ∀ acc : String,
      List.foldl (fun a r => a ++ g r) acc l = acc ++ String.join (l.map g) := by
  induction l with
  | nil => intro acc; simp [String.join, List.foldl, String.append_empty]
  | cons x xs ih =>
      intro acc
      show List.foldl (fun a r => a ++ g r) (acc ++ g x) xs = _
      rw [ih (acc ++ g x), List.map_cons, strJoin_cons, strAppendAssoc]

-- Helper lemmas about collect, firstErr, gather, completedEvents

/-- When every outcome is ok, collect succeeds with the extracted results. -/
theorem collect_ok_of_all {α : Type} (l : List (Except String α))
    (h : ∀ o ∈ l, o.isOk = true) :
    collect l = Except.ok (l.filterMap Except.toOption) := by
  induction l with
  | nil => rfl
  | cons x xs ih =>
      cases x with
      | error e =>
          have := h (Except.error e) (List.mem_cons_self _ _)
          simp [Except.isOk, Except.toBool] at this
      | ok a =>
          have hrec := ih (fun o ho => h o (List.mem_cons_of_mem _ ho))
          simp [collect, hrec, Except.toOption]

/-- A successful collect forces every outcome ok and fixes the result list. -/
theorem collect_eq_ok {α : Type} {l : List (Except String α)} {s : List α}
    (h : collect l = Except.ok s) :
    s = l.filterMap Except.toOption ∧ ∀ o ∈ l, o.isOk = true := by
  induction l generalizing s with
  | nil =>
      simp [collect] at h
      subst h
      simp
  | cons x xs ih =>
      cases x with
      | error e => simp [collect] at h
      | ok a =>
          simp only [collect] at h
          cases hrec : collect xs with
          | error e => rw [hrec] at h; simp at h
          | ok l' =>
              rw [hrec] at h
              simp at h
              obtain ⟨h1, h2⟩ := ih hrec
              subst h
              constructor
              · simp [Except.toOption, h1]
              · intro o ho
                rcases List.mem_cons.mp ho with h3 | h3
                · subst h3; rfl
                · exact h2 o h3
  
/-- If some outcome is an error, collect fails. -/
theorem collect_error_of_mem {α : Type} (l : List (Except String α))
    (h : ∃ o ∈ l, o.isOk = false) : ∃ e, collect l = Except.error e := by
  induction l with
  | nil => simp at h
  | cons x xs ih =>
      cases x with
      | error e => exact ⟨e, rfl⟩
      | ok a =>
          obtain ⟨o, ho, hok⟩ := h
          rcases List.mem_cons.mp ho with h1 | h1
          · subst h1; simp [Except.isOk, Except.toBool] at hok
          · obtain ⟨e, he⟩ := ih ⟨o, h1, hok⟩
            exact ⟨e, by simp [collect, he]⟩

/-- gather with a fully ok batch returns the task-order results. -/
theorem gather_ok {α : Type} {l : List (Except String α)} {s : List α}
    (h : collect l = Except.ok s) (sched : List Nat) :
    gather l sched = Except.ok s := by
  simp [gather, h]

/-- gather with a failing batch fails. -/
theorem gather_error {α : Type} {l : List (Except String α)} {e : String}
    (h : collect l = Except.error e) (sched : List Nat) :
    ∃ e', gather l sched = Except.error e' := by
  refine ⟨(firstErr l sched).getD e, ?_⟩
  simp [gather, h]

/-- When the schedule reaches exactly one faulting task and every other
scheduled task is ok, firstErr returns that fault. -/
theorem firstErr_unique {α : Type} (l : List (Except String α)) (i : Nat) (e : String)
    (hi : l[i]? = some (Except.error e))
    (hothers : ∀ j o, j ≠ i → l[j]? = some o → o.isOk = true) :
    ∀ sched : List Nat, i ∈ sched → firstErr l sched = some e := by
  intro sched
  induction sched with
  | nil => simp
  | cons j rest ih =>
      intro hmem
      by_cases hj : j = i
      · subst hj
        simp [firstErr, hi]
      · have hsplit : i ∈ rest := by
          rcases List.mem_cons.mp hmem with h1 | h1
          · exact absurd h1.symm hj
          · exact h1
        cases ho : l[j]? with
        | none => simpa [firstErr, ho] using ih hsplit
        | some o =>
            cases o with
            | error e' =>
                have := hothers j (Except.error e') hj ho
                simp [Except.isOk, Except.toBool] at this
            | ok a => simpa [firstErr, ho] using ih hsplit

/-- With a unique fault reached by the schedule, gather propagates exactly
that fault. -/
theorem gather_unique_fault {α : Type} (l : List (Except String α)) (i : Nat) (e : String)
    (sched : List Nat)
    (hi : l[i]? = some (Except.error e))
    (hothers : ∀ j o, j ≠ i → l[j]? = some o → o.isOk = true)
    (hmem : i ∈ sched) :
    gather l sched = Except.error e := by
  have hf : firstErr l sched = some e := firstErr_unique l i e hi hothers sched hmem
  have herr : ∃ e', collect l = Except.error e' := by
    apply collect_error_of_mem
    exact ⟨Except.error e, List.getElem?_mem hi, rfl⟩
  obtain ⟨e', he'⟩ := herr
  simp [gather, he', hf]

/-- With no faulting outcome, completion events are one per scheduled
index, in completion order. -/
theorem completedEvents_of_ok (outcomes : List (Except String SectionFindings))
    (h : ∀ o ∈ outcomes, o.isOk = true) (sched : List Nat) :
    completedEvents outcomes sched = sched.map Ev.workerCompleted := by
  induction sched with
  | nil => rfl
  | cons i rest ih =>
      cases ho : outcomes[i]? with
      | none => simp [completedEvents, ho, ih]
      | some o =>
          cases o with
          | error e =>
              have := h (Except.error e) (List.getElem?_mem ho)
              simp [Except.isOk, Except.toBool] at this
          | ok a => simp [completedEvents, ho, ih]

/-- The run when the classifier LLM call fails. -/
theorem rr_classify_error {env : Env} {q e : String} (sched : List Nat)
    (h : env.classify q = Except.error e) :
    run_research env sched q =
      (["🔎 Starting research for: " ++ q ++ "..."], [Ev.classifierCall],
       Except.error e) := by
  simp [run_research, h]

/-- The run when classification succeeds but the planner stage fails. -/
theorem rr_plan_error {env : Env} {q : String} {c : QueryClassification} {e : String}
    (sched : List Nat) (hc : env.classify q = Except.ok c)
    (hp : planStep env c = Except.error e) :
    run_research env sched q = (yields2 q c, eventsPre env c, Except.error e) := by
  simp [run_research, hc, hp, yields2, eventsPre]

/-- The run when a worker task faults during the gathered deep dive. -/
theorem rr_gather_error {env : Env} {q : String} {c : QueryClassification}
    {plan : ResearchPlan} {e : String} (sched : List Nat)
    (hc : env.classify q = Except.ok c) (hp : planStep env c = Except.ok plan)
    (hg : gather (workerOutcomes env plan c) sched = Except.error e) :
    run_research env sched q =
      (yields4 q c plan,
       eventsPre env c ++ scheduledEvents plan
         ++ completedEvents (workerOutcomes env plan c) sched,
       Except.error e) := by
  simp [run_research, hc, hp, hg, yields4, yields2, eventsPre]

/-- The run when the deep dive succeeds but the writer LLM call fails. -/
theorem rr_write_error {env : Env} {q : String} {c : QueryClassification}
    {plan : ResearchPlan} {sections : List SectionFindings} {e : String} (sched : List Nat)
    (hc : env.classify q = Except.ok c) (hp : planStep env c = Except.ok plan)
    (hg : gather (workerOutcomes env plan c) sched = Except.ok sections)
    (hw : env.write (synthesisInput c sections) = Except.error e) :
    run_research env sched q =
      (yields5 q c plan,
       eventsPre env c ++ scheduledEvents plan
         ++ completedEvents (workerOutcomes env plan c) sched
         ++ [Ev.writerCall (synthesisInput c sections)],
       Except.error e) := by
  simp [run_research, hc, hp, hg, hw, yields5, yields4, yields2, eventsPre]

/-- The run when every stage succeeds. -/
theorem rr_write_ok {env : Env} {q : String} {c : QueryClassification}
    {plan : ResearchPlan} {sections : List SectionFindings} {report : String}
    (sched : List Nat)
    (hc : env.classify q = Except.ok c) (hp : planStep env c = Except.ok plan)
    (hg : gather (workerOutcomes env plan c) sched = Except.ok sections)
    (hw : env.write (synthesisInput c sections) = Except.ok report) :
    run_research env sched q =
      (yields5 q c plan ++ [report],
       eventsPre env c ++ scheduledEvents plan
         ++ completedEvents (workerOutcomes env plan c) sched
         ++ [Ev.writerCall (synthesisInput c sections)],
       Except.ok report) := by
  simp [run_research, hc, hp, hg, hw, yields5, yields4, yields2, eventsPre]

-- Additional helper lemmas

/-- String append is left-cancellative. -/
theorem str_append_left_cancel {a b c : String} (h : a ++ b = a ++ c) : b = c := by
  have hd := congrArg String.data h
  rw [String.data_append, String.data_append] at hd
  exact String.ext (List.append_cancel_left hd)

/-- The worker findings context is the join of one source block per result. -/
theorem run_worker_context (env : Env) (a : ResearchAngle) (c : QueryClassification) :
    (run_worker env a c).1.findings_context =
      String.join (((run_worker env a c).1.results).map
        (fun r => sourceBlock (env.fetch r.url) r)) := by
  show List.foldl _ "" _ = _
  rw [foldl_append_eq_join, String.empty_append]
  rfl

/-- The synthesis document is the topic header followed by the join of the
section blocks in section order. -/
theorem synthesisInput_eq (c : QueryClassification) (sections : List SectionFindings) :
    synthesisInput c sections =
      "Topic: " ++ c.resolved_name ++ "\n\n" ++ String.join (sections.map sectionBlock) := by
  unfold synthesisInput
  have hfun : (fun (acc : String) s =>
      (List.foldl (fun acc2 f => acc2 ++ findingLine f)
        (acc ++ "## Angle: " ++ s.angle ++ "\n" ++ s.summary ++ "\n") s.findings) ++ "\n")
      = fun (acc : String) (s : SectionFindings) => acc ++ sectionBlock s := by
    funext acc s
    rw [foldl_append_eq_join]
    simp only [sectionBlock, strAppendAssoc]
  rw [hfun, foldl_append_eq_join]

-- Claim theorems

/-- C4: fetch_page_content is total: modelled on an arbitrary HTTP outcome
and an arbitrary text extractor it always returns a string of at most 5000
characters, and it returns the empty string when the request raised or when
the HTTP status is not 200. -/
theorem fetch_page_content_total_and_bounded (extract : String → String) (o : HttpOutcome) :
    (fetch_page_content extract o).length ≤ 5000
  ∧ (o = HttpOutcome.failure → fetch_page_content extract o = "")
  ∧ (∀ st b, o = HttpOutcome.response st b → st ≠ 200 →
      fetch_page_content extract o = "") := by
  refine ⟨?_, ?_, ?_⟩
  · cases o with
    | failure => simp [fetch_page_content]
    | response st b =>
        by_cases h : st = 200
        · subst h
          simp only [fetch_page_content, stringTake, if_true]
          show (List.take 5000 (extract b).data).length ≤ 5000
          exact List.length_take_le _ _
        · simp [fetch_page_content, h]
  · intro h; subst h; rfl
  · intro st b h hne; subst h; simp [fetch_page_content, hne]

/-- C4 witness: evaluated at a raised request and at a 404 response. -/
theorem fetch_page_content_total_and_bounded_witness :
    fetch_page_content (fun s => s) HttpOutcome.failure = ""
  ∧ fetch_page_content (fun s => s) (HttpOutcome.response 404 "missing page") = "" :=
  ⟨(fetch_page_content_total_and_bounded (fun s => s) HttpOutcome.failure).2.1 rfl,
   (fetch_page_content_total_and_bounded (fun s => s)
      (HttpOutcome.response 404 "missing page")).2.2 404 "missing page" rfl (by decide)⟩

/-- C9: the model identifier of each variant is read from one environment
variable, defaults to "openai:gpt-5-mini" when that variable is absent, and
depends on no other environment entry. -/
theorem model_identifier_config (g g₁ g₂ : String → Option String) :
    (g "MODEL_NAME" = none → model_name g = "openai:gpt-5-mini")
  ∧ (g "OPENAI_MODEL" = none → MODEL_NAME g = "openai:gpt-5-mini")
  ∧ (g₁ "MODEL_NAME" = g₂ "MODEL_NAME" → model_name g₁ = model_name g₂)
  ∧ (g₁ "OPENAI_MODEL" = g₂ "OPENAI_MODEL" → MODEL_NAME g₁ = MODEL_NAME g₂) := by
  refine ⟨fun h => ?_, fun h => ?_, fun h => ?_, fun h => ?_⟩ <;>
    simp [model_name, MODEL_NAME, h]

/-- C9 witness: evaluated on the empty environment. -/
theorem model_identifier_config_witness :
    model_name (fun _ => none) = "openai:gpt-5-mini"
  ∧ MODEL_NAME (fun _ => none) = "openai:gpt-5-mini" :=
  ⟨(model_identifier_config (fun _ => none) (fun _ => none) (fun _ => none)).1 rfl,
   (model_identifier_config (fun _ => none) (fun _ => none) (fun _ => none)).2.1 rfl⟩

/-- C5: the angle worker builds its search query as resolved_name followed
by the angle title, requests at most 3 results, builds one block per result
of title, URL, and fetched content truncated to 2000 characters, and issues
exactly one worker-LLM call on the assembled prompt. -/
theorem run_worker_procedure (env : Env) (a : ResearchAngle) (c : QueryClassification) :
    (run_worker env a c).1.searchQuery = c.resolved_name ++ " " ++ a.angle
  ∧ (run_worker env a c).1.maxResults = 3
  ∧ (run_worker env a c).1.results = env.search (c.resolved_name ++ " " ++ a.angle) 3
  ∧ (run_worker env a c).1.findings_context =
      String.join ((run_worker env a c).1.results.map
        (fun r => sourceBlock (env.fetch r.url) r))
  ∧ (run_worker env a c).1.prompt =
      "Topic: " ++ c.resolved_name ++ "\nAngle: " ++ a.angle ++ "\nDescription: "
        ++ a.description ++ "\n\nSearch Content:\n" ++ (run_worker env a c).1.findings_context
  ∧ (∀ r ∈ (run_worker env a c).1.results,
      (stringTake (env.fetch r.url) 2000).length ≤ 2000)
  ∧ (run_worker env a c).2 = env.workerLLM ((run_worker env a c).1.prompt) := by
  refine ⟨rfl, rfl, rfl, run_worker_context env a c, rfl, ?_, rfl⟩
  intro r hr
  show (List.take 2000 (env.fetch r.url).data).length ≤ 2000
  exact List.length_take_le _ _

/-- C5 witness: evaluated in a concrete environment with one search result. -/
theorem run_worker_procedure_witness :
    (run_worker envEmptyFetch angleA clsNV).1.searchQuery = "NVIDIA SWOT Analysis"
  ∧ (run_worker envEmptyFetch angleA clsNV).1.maxResults = 3 :=
  ⟨(run_worker_procedure envEmptyFetch angleA clsNV).1,
   (run_worker_procedure envEmptyFetch angleA clsNV).2.1⟩

/-- C6: when every fetched source of an angle yields the empty string, the
worker still returns a SectionFindings value when its own LLM call
succeeds; the prompt context degrades to empty-content blocks. -/
theorem run_worker_ok_when_all_fetches_fail (env : Env) (a : ResearchAngle)
    (c : QueryClassification) (s : SectionFindings)
    (hfetch : ∀ r ∈ env.search (c.resolved_name ++ " " ++ a.angle) 3,
        env.fetch r.url = "")
    (hok : env.workerLLM ((run_worker env a c).1.prompt) = Except.ok s) :
    (run_worker env a c).2 = Except.ok s
  ∧ (run_worker env a c).1.findings_context =
      String.join ((env.search (c.resolved_name ++ " " ++ a.angle) 3).map
        (sourceBlock "")) := by
  constructor
  · exact hok
  · rw [run_worker_context env a c]
    show String.join ((env.search (c.resolved_name ++ " " ++ a.angle) 3).map _) = _
    congr 1
    exact List.map_congr_left (fun r hr => by rw [hfetch r hr])

/-- C6 witness: a concrete angle whose single source fetch yields "". -/
theorem run_worker_ok_when_all_fetches_fail_witness :
    (run_worker envEmptyFetch angleA clsNV).2 = Except.ok sampleSection :=
  (run_worker_ok_when_all_fetches_fail envEmptyFetch angleA clsNV sampleSection
    (fun _ _ => rfl) rfl).1

/-- C7: an empty search result set raises no error: with zero discovery
results the planner is still called, on a prompt whose context part is
empty, and with zero angle results the worker LLM is still called, on a
prompt whose findings context is empty. -/
theorem empty_search_is_not_an_error (env : Env) (sched : List Nat) (q : String)
    (c : QueryClassification) (a : ResearchAngle) :
    (env.classify q = Except.ok c → env.search (discoveryQuery c) 3 = [] →
        plannerPrompt env c = "Topic: " ++ c.resolved_name ++ "\nContext: "
      ∧ Ev.plannerCall (plannerPrompt env c) ∈ (run_research env sched q).2.1)
  ∧ (env.search (c.resolved_name ++ " " ++ a.angle) 3 = [] →
        (run_worker env a c).1.findings_context = ""
      ∧ (run_worker env a c).2 = env.workerLLM ((run_worker env a c).1.prompt)) := by
  constructor
  · intro hc hs
    constructor
    · show "Topic: " ++ c.resolved_name ++ "\nContext: " ++ discoveryContext env c = _
      rw [discoveryContext, hs]
      show "Topic: " ++ c.resolved_name ++ "\nContext: " ++ "" = _
      rw [String.append_empty]
    · rcases hps : planStep env c with e | plan
      · rw [rr_plan_error sched hc hps]
        simp [eventsPre]
      · rcases hg : gather (workerOutcomes env plan c) sched with e | sections
        · rw [rr_gather_error sched hc hps hg]
          simp [eventsPre]
        · rcases hw : env.write (synthesisInput c sections) with e | rep
          · rw [rr_write_error sched hc hps hg hw]
            simp [eventsPre]
          · rw [rr_write_ok sched hc hps hg hw]
            simp [eventsPre]
  · intro hs
    constructor
    · show List.foldl _ "" (env.search (c.resolved_name ++ " " ++ a.angle) 3) = ""
      rw [hs]
      rfl
    · rfl

/-- C7 witness: a concrete environment whose searches return no results. -/
theorem empty_search_is_not_an_error_witness :
    plannerPrompt envOk clsNV = "Topic: NVIDIA\nContext: "
  ∧ (run_worker envOk angleA clsNV).1.findings_context = "" :=
  ⟨((empty_search_is_not_an_error envOk [] "NVDA" clsNV angleA).1 rfl rfl).1,
   ((empty_search_is_not_an_error envOk [] "NVDA" clsNV angleA).2 rfl).1⟩

/-- C1 counterexample: the pipeline does NOT accept a Research Plan whose
angle list has fewer than 3 entries — with a planner LLM returning two
angles the run fails at the schema-validation step. -/
theorem plan_cardinality_counterexample :
    (run_research envTwoAngles [] "NVDA").2.2 =
      Except.error "List should have at least 3 items" := rfl

/-- C1 amended: the 3-to-4 cardinality of the Research Plan is enforced by
code: pydantic validation of the angles field (min_length 3, max_length 4)
rejects any other length, so the run fails on such planner output. -/
theorem plan_cardinality_enforced (env : Env) (sched : List Nat) (q : String)
    (c : QueryClassification) (raw : List ResearchAngle)
    (hc : env.classify q = Except.ok c)
    (hp : env.planRaw (plannerPrompt env c) = Except.ok raw)
    (hlen : raw.length < 3 ∨ 4 < raw.length) :
    (∃ e, (run_research env sched q).2.2 = Except.error e)
  ∧ ∀ l : List ResearchAngle,
      ((ResearchPlan.validate l).isOk = true ↔ 3 ≤ l.length ∧ l.length ≤ 4) := by
  constructor
  · rcases hlen with h | h
    · have hps : planStep env c = Except.error "List should have at least 3 items" := by
        simp [planStep, hp, ResearchPlan.validate, h]
      exact ⟨_, by rw [rr_plan_error sched hc hps]⟩
    · have h3 : ¬ raw.length < 3 := by omega
      have hps : planStep env c = Except.error "List should have at most 4 items" := by
        simp [planStep, hp, ResearchPlan.validate, h3, h]
      exact ⟨_, by rw [rr_plan_error sched hc hps]⟩
  · intro l
    unfold ResearchPlan.validate
    split_ifs with h1 h2 <;> simp [Except.isOk, Except.toBool] <;> omega

/-- C1 amended witness: a two-angle planner output makes the run fail. -/
theorem plan_cardinality_enforced_witness :
    ∃ e, (run_research envTwoAngles [] "NVDA").2.2 = Except.error e :=
  (plan_cardinality_enforced envTwoAngles [] "NVDA" clsNV [angleA, angleB] rfl rfl
    (Or.inl (by decide))).1

/-- C3: when any LLM call performed by the run raises — the classifier, the
planner, any worker, or the writer — the run terminates with an error (for
the classifier, planner, writer, and a uniquely faulting worker it is that
very error) and the result carries no final report value. -/
theorem run_fails_when_any_llm_call_fails (env : Env) (sched : List Nat) (q : String) :
    (∀ e, env.classify q = Except.error e →
        (run_research env sched q).2.2 = Except.error e)
  ∧ (∀ c e, env.classify q = Except.ok c →
        env.planRaw (plannerPrompt env c) = Except.error e →
        (run_research env sched q).2.2 = Except.error e)
  ∧ (∀ c plan i a e, env.classify q = Except.ok c → planStep env c = Except.ok plan →
        plan.angles[i]? = some a → (run_worker env a c).2 = Except.error e →
        (∃ e', (run_research env sched q).2.2 = Except.error e')
        ∧ (i ∈ sched →
            (∀ j b, j ≠ i → plan.angles[j]? = some b →
              ((run_worker env b c).2).isOk = true) →
            (run_research env sched q).2.2 = Except.error e))
  ∧ (∀ c plan sections e, env.classify q = Except.ok c → planStep env c = Except.ok plan →
        collect (workerOutcomes env plan c) = Except.ok sections →
        env.write (synthesisInput c sections) = Except.error e →
        (run_research env sched q).2.2 = Except.error e) := by
  refine ⟨?_, ?_, ?_, ?_⟩
  · intro e h
    rw [rr_classify_error sched h]
  · intro c e hc hp
    have hps : planStep env c = Except.error e := by simp [planStep, hp]
    rw [rr_plan_error sched hc hps]
  · intro c plan i a e hc hp hia hwa
    have hoi : (workerOutcomes env plan c)[i]? = some (Except.error e) := by
      rw [workerOutcomes, List.getElem?_map, hia]
      simp [hwa]
    constructor
    · have hmem : Except.error e ∈ workerOutcomes env plan c := List.getElem?_mem hoi
      obtain ⟨e0, he0⟩ := collect_error_of_mem _ ⟨_, hmem, rfl⟩
      obtain ⟨e', hg⟩ := gather_error he0 sched
      exact ⟨e', by rw [rr_gather_error sched hc hp hg]⟩
    · intro hmemsched hothers
      have hoth : ∀ j o, j ≠ i → (workerOutcomes env plan c)[j]? = some o →
          o.isOk = true := by
        intro j o hj hjo
        rw [workerOutcomes, List.getElem?_map] at hjo
        cases hb : plan.angles[j]? with
        | none => rw [hb] at hjo; simp at hjo
        | some b =>
            rw [hb] at hjo
            simp at hjo
            rw [← hjo]
            exact hothers j b hj hb
      have hg := gather_unique_fault (workerOutcomes env plan c) i e sched hoi hoth hmemsched
      rw [rr_gather_error sched hc hp hg]
  · intro c plan sections e hc hp hcol hw
    have hg := gather_ok hcol sched
    rw [rr_write_error sched hc hp hg hw]

/-- C3 witness: a run whose classifier call raises yields exactly that
error and no report. -/
theorem run_fails_when_any_llm_call_fails_witness :
    (run_research envClassifyFail [] "NVDA").2.2 = Except.error "boom" :=
  (run_fails_when_any_llm_call_fails envClassifyFail [] "NVDA").1 "boom" rfl

-- Helpers for scheduling events

/-- The events before the deep dive contain no scheduling event. -/
theorem filterMap_schedTitle_pre (env : Env) (c : QueryClassification) :
    (eventsPre env c).filterMap schedTitle = [] := by
  simp [eventsPre, schedTitle]

/-- The scheduling events carry exactly the angle titles in plan order. -/
theorem filterMap_schedTitle_scheduled (plan : ResearchPlan) :
    (scheduledEvents plan).filterMap schedTitle = plan.angles.map ResearchAngle.angle := by
  rcases plan with ⟨angles⟩
  induction angles with
  | nil => rfl
  | cons a l ih =>
      have ih2 : List.filterMap schedTitle
          (List.map (fun x => Ev.workerScheduled x.angle) l)
          = List.map ResearchAngle.angle l := ih
      simp [scheduledEvents, List.filterMap_cons, schedTitle, ih2]

/-- Completion events contain no scheduling event. -/
theorem filterMap_schedTitle_completed (outcomes : List (Except String SectionFindings))
    (sched : List Nat) :
    (completedEvents outcomes sched).filterMap schedTitle = [] := by
  induction sched with
  | nil => rfl
  | cons i rest ih =>
      cases ho : outcomes[i]? with
      | none => simp [completedEvents, ho, schedTitle, ih]
      | some o =>
          cases o with
          | error e => simp [completedEvents, ho, schedTitle]
          | ok a => simp [completedEvents, ho, schedTitle, ih]

/-- No writer-call event occurs among the completion events. -/
theorem writerCall_not_mem_completed (outcomes : List (Except String SectionFindings))
    (sched : List Nat) (s : String) :
    Ev.writerCall s ∉ completedEvents outcomes sched := by
  induction sched with
  | nil => simp [completedEvents]
  | cons i rest ih =>
      cases ho : outcomes[i]? with
      | none => simp [completedEvents, ho, ih]
      | some o =>
          cases o with
          | error e => simp [completedEvents, ho]
          | ok a => simp [completedEvents, ho, ih]

/-- C2: with a plan of k angles the orchestrator schedules exactly k worker
tasks, one per angle in plan order; when all tasks complete, the writer
call strictly follows all k completion events and the yields and final
result are identical for every completion order; and one faulting task
fails the entire run, with no writer call at all. -/
theorem fanout_join_all (env : Env) (sched : List Nat) (q : String)
    (c : QueryClassification) (plan : ResearchPlan)
    (hc : env.classify q = Except.ok c) (hp : planStep env c = Except.ok plan)
    (hs : sched.Perm (List.range plan.angles.length)) :
    sched.length = plan.angles.length
  ∧ (run_research env sched q).2.1.filterMap schedTitle
      = plan.angles.map ResearchAngle.angle
  ∧ ((∀ o ∈ workerOutcomes env plan c, o.isOk = true) →
      ∃ sections, collect (workerOutcomes env plan c) = Except.ok sections
        ∧ (run_research env sched q).2.1 =
            (eventsPre env c ++ scheduledEvents plan)
              ++ sched.map Ev.workerCompleted
              ++ [Ev.writerCall (synthesisInput c sections)]
        ∧ ∀ sched' : List Nat,
            (run_research env sched' q).1 = (run_research env sched q).1
          ∧ (run_research env sched' q).2.2 = (run_research env sched q).2.2)
  ∧ ((∃ o ∈ workerOutcomes env plan c, o.isOk = false) →
      (∃ e, (run_research env sched q).2.2 = Except.error e)
      ∧ ∀ s, Ev.writerCall s ∉ (run_research env sched q).2.1) := by
  refine ⟨?_, ?_, ?_, ?_⟩
  · rw [List.Perm.length_eq hs, List.length_range]
  · rcases hg : gather (workerOutcomes env plan c) sched with e | sections
    · rw [rr_gather_error sched hc hp hg]
      simp [List.filterMap_append, filterMap_schedTitle_pre,
        filterMap_schedTitle_scheduled, filterMap_schedTitle_completed]
    · rcases hw : env.write (synthesisInput c sections) with e | rep
      · rw [rr_write_error sched hc hp hg hw]
        simp [List.filterMap_append, filterMap_schedTitle_pre,
          filterMap_schedTitle_scheduled, filterMap_schedTitle_completed, schedTitle]
      · rw [rr_write_ok sched hc hp hg hw]
        simp [List.filterMap_append, filterMap_schedTitle_pre,
          filterMap_schedTitle_scheduled, filterMap_schedTitle_completed, schedTitle]
  · intro hall
    have hcol := collect_ok_of_all _ hall
    refine ⟨_, hcol, ?_, ?_⟩
    · have hg := gather_ok hcol sched
      have hcomp := completedEvents_of_ok _ hall sched
      rcases hw : env.write (synthesisInput c
          ((workerOutcomes env plan c).filterMap Except.toOption)) with e | rep
      · rw [rr_write_error sched hc hp hg hw, hcomp]
      · rw [rr_write_ok sched hc hp hg hw, hcomp]
    · intro sched'
      have hg := gather_ok hcol sched
      have hg' := gather_ok hcol sched'
      rcases hw : env.write (synthesisInput c
          ((workerOutcomes env plan c).filterMap Except.toOption)) with e | rep
      · rw [rr_write_error sched hc hp hg hw, rr_write_error sched' hc hp hg' hw]
        exact ⟨rfl, rfl⟩
      · rw [rr_write_ok sched hc hp hg hw, rr_write_ok sched' hc hp hg' hw]
        exact ⟨rfl, rfl⟩
  · intro hfault
    obtain ⟨e0, hcol⟩ := collect_error_of_mem _ hfault
    obtain ⟨e', hg⟩ := gather_error hcol sched
    refine ⟨⟨e', by rw [rr_gather_error sched hc hp hg]⟩, ?_⟩
    intro s hmem
    rw [rr_gather_error sched hc hp hg] at hmem
    simp only [List.mem_append] at hmem
    rcases hmem with (hmem | hmem) | hmem
    · simp [eventsPre] at hmem
    · simp only [scheduledEvents, List.mem_map] at hmem
      obtain ⟨a, _, ha⟩ := hmem
      exact Ev.noConfusion ha
    · exact writerCall_not_mem_completed _ _ _ hmem

/-- C2 witness: a concrete three-angle run schedules the three angle
titles in plan order. -/
theorem fanout_join_all_witness :
    (run_research envOk [0, 1, 2] "NVDA").2.1.filterMap schedTitle
      = ["SWOT Analysis", "Financials", "Competitors"] :=
  (fanout_join_all envOk [0, 1, 2] "NVDA" clsNV ⟨[angleA, angleB, angleC]⟩
    rfl rfl (by decide)).2.1

/-- C8: the synthesis input is independent of worker completion order:
with the per-angle results fixed, any two completion schedules give the
same yields and the same final result, the writer is called on the same
synthesis document, the document is built from the worker results in the
planner's angle order, and its section blocks appear in that order. -/
theorem synthesis_order_independent (env : Env) (sched₁ sched₂ : List Nat) (q : String)
    (c : QueryClassification) (plan : ResearchPlan) (sections : List SectionFindings)
    (hc : env.classify q = Except.ok c) (hp : planStep env c = Except.ok plan)
    (hcol : collect (workerOutcomes env plan c) = Except.ok sections) :
    (run_research env sched₁ q).1 = (run_research env sched₂ q).1
  ∧ (run_research env sched₁ q).2.2 = (run_research env sched₂ q).2.2
  ∧ Ev.writerCall (synthesisInput c sections) ∈ (run_research env sched₁ q).2.1
  ∧ sections = (workerOutcomes env plan c).filterMap Except.toOption
  ∧ synthesisInput c sections =
      "Topic: " ++ c.resolved_name ++ "\n\n" ++ String.join (sections.map sectionBlock) := by
  have hg1 := gather_ok hcol sched₁
  have hg2 := gather_ok hcol sched₂
  refine ⟨?_, ?_, ?_, (collect_eq_ok hcol).1, synthesisInput_eq c sections⟩
  · rcases hw : env.write (synthesisInput c sections) with e | rep
    · rw [rr_write_error sched₁ hc hp hg1 hw, rr_write_error sched₂ hc hp hg2 hw]
    · rw [rr_write_ok sched₁ hc hp hg1 hw, rr_write_ok sched₂ hc hp hg2 hw]
  · rcases hw : env.write (synthesisInput c sections) with e | rep
    · rw [rr_write_error sched₁ hc hp hg1 hw, rr_write_error sched₂ hc hp hg2 hw]
    · rw [rr_write_ok sched₁ hc hp hg1 hw, rr_write_ok sched₂ hc hp hg2 hw]
  · rcases hw : env.write (synthesisInput c sections) with e | rep
    · rw [rr_write_error sched₁ hc hp hg1 hw]
      simp
    · rw [rr_write_ok sched₁ hc hp hg1 hw]
      simp

/-- C8 witness: two opposite completion orders of a concrete three-angle
run yield the same status stream. -/
theorem synthesis_order_independent_witness :
    (run_research envOk [0, 1, 2] "NVDA").1 = (run_research envOk [2, 1, 0] "NVDA").1 :=
  (synthesis_order_independent envOk [0, 1, 2] [2, 1, 0] "NVDA" clsNV
    ⟨[angleA, angleB, angleC]⟩ [sampleSection, sampleSection, sampleSection]
    rfl rfl rfl).1

-- Helpers for the markdown renderer

/-- Strings with different first characters differ. -/
theorem head_ne_aux {a t : String} {x y : Char} (hx : a.data.head? = some x)
    (ht : t.data.head? = some y) (hxy : x ≠ y) : a ≠ t := by
  intro h
  rw [h, ht] at hx
  exact hxy (Option.some.inj hx).symm

/-- The empty string differs from any string with a first character. -/
theorem empty_ne_of_head {t : String} {y : Char} (ht : t.data.head? = some y) :
    "" ≠ t := by
  intro h
  rw [← h] at ht
  exact Option.noConfusion ht

/-- A heading line (first character '#') other than the section's own
heading does not occur among a section's rendered lines. -/
theorem heading_not_mem_sectionLines (s : ReportSection) (t : String)
    (ht : t.data.head? = some '#') (htitle : "## " ++ s.title ≠ t) :
    t ∉ sectionLines s := by
  intro hmem
  unfold sectionLines at hmem
  rcases List.mem_append.mp hmem with h | h
  · rcases List.mem_append.mp h with h | h
    · simp only [List.mem_cons, List.not_mem_nil, or_false] at h
      rcases h with h | h
      · exact htitle h.symm
      · exact (empty_ne_of_head ht) h.symm
    · by_cases hk : s.key_findings.isEmpty = true
      · rw [if_pos hk] at h
        exact absurd h (List.not_mem_nil _)
      · rw [if_neg hk] at h
        rcases List.mem_append.mp h with h | h
        · rcases List.mem_append.mp h with h | h
          · simp only [List.mem_cons, List.not_mem_nil, or_false] at h
            rcases h with h | h
            · exact (head_ne_aux (a := "**Key findings**") rfl ht (by decide)) h.symm
            · exact (empty_ne_of_head ht) h.symm
          · rw [List.mem_map] at h
            obtain ⟨f, _, hf⟩ := h
            exact (head_ne_aux (a := "- " ++ f) rfl ht (by decide)) hf
        · simp only [List.mem_cons, List.not_mem_nil, or_false] at h
          exact (empty_ne_of_head ht) h.symm
  · by_cases he : s.evidence.isEmpty = true
    · rw [if_pos he] at h
      exact absurd h (List.not_mem_nil _)
    · rw [if_neg he] at h
      rcases List.mem_append.mp h with h | h
      · rcases List.mem_append.mp h with h | h
        · simp only [List.mem_cons, List.not_mem_nil, or_false] at h
          rcases h with h | h
          · exact (head_ne_aux (a := "**Evidence**") rfl ht (by decide)) h.symm
          · exact (empty_ne_of_head ht) h.symm
        · rw [List.mem_flatten] at h
          obtain ⟨l, hl, hx⟩ := h
          rw [List.mem_map] at hl
          obtain ⟨e, _, hle⟩ := hl
          rw [← hle] at hx
          simp only [List.mem_cons, List.not_mem_nil, or_false] at hx
          rcases hx with hx | hx
          · exact (head_ne_aux (a := "- " ++ e.claim) rfl ht (by decide)) hx.symm
          · exact (head_ne_aux
              (a := "  — Source: [" ++ e.source_title ++ "](" ++ e.url ++ ")")
              rfl ht (by decide)) hx.symm
      · simp only [List.mem_cons, List.not_mem_nil, or_false] at h
        exact (empty_ne_of_head ht) h.symm

/-- The per-section headings are a sublist of the flattened section lines. -/
theorem heading_sublist (sections : List ReportSection) :
    (sections.map (fun s => "## " ++ s.title)).Sublist
      ((sections.map sectionLines).flatten) := by
  induction sections with
  | nil => simp
  | cons s ss ih =>
      simp only [List.map_cons, List.flatten_cons]
      exact List.Sublist.cons₂ _ (ih.trans (List.sublist_append_right _ _))

/-- Membership of a heading line in the rendered report: provided the line
is not the fixed executive heading, not the raw executive summary, and not
a section heading, it occurs exactly when it is the risks heading with a
non-empty risks list or the watch heading with a non-empty watch list. -/
theorem heading_mem_reportLines (r : DeepResearchReport) (t : String)
    (ht : t.data.head? = some '#')
    (hexec : t ≠ "## Executive summary")
    (hex : t ≠ r.executive_summary)
    (hsec : ∀ s ∈ r.sections, t ≠ "## " ++ s.title) :
    t ∈ reportLines r ↔
      (r.risks_uncertainties ≠ [] ∧ t = "## Risks and uncertainties")
      ∨ (r.what_to_watch_next ≠ [] ∧ t = "## What to watch next") := by
  constructor
  · intro hmem
    unfold reportLines at hmem
    rcases List.mem_append.mp hmem with h | h
    · rcases List.mem_append.mp h with h | h
      · rcases List.mem_append.mp h with h | h
        · simp only [List.mem_cons, List.not_mem_nil, or_false] at h
          rcases h with h | h | h | h
          · exact absurd h hexec
          · exact absurd h.symm (empty_ne_of_head ht)
          · exact absurd h hex
          · exact absurd h.symm (empty_ne_of_head ht)
        · rw [List.mem_flatten] at h
          obtain ⟨l, hl, hx⟩ := h
          rw [List.mem_map] at hl
          obtain ⟨s, hsmem, hls⟩ := hl
          rw [← hls] at hx
          exact absurd hx
            (heading_not_mem_sectionLines s t ht (hsec s hsmem).symm)
      · by_cases hrisk : r.risks_uncertainties.isEmpty = true
        · rw [if_pos hrisk] at h
          exact absurd h (List.not_mem_nil _)
        · rw [if_neg hrisk] at h
          left
          refine ⟨fun hemp => hrisk (by rw [hemp]; rfl), ?_⟩
          rcases List.mem_append.mp h with h | h
          · rcases List.mem_append.mp h with h | h
            · simp only [List.mem_cons, List.not_mem_nil, or_false] at h
              rcases h with h | h
              · exact h
              · exact absurd h.symm (empty_ne_of_head ht)
            · rw [List.mem_map] at h
              obtain ⟨x, _, hx⟩ := h
              exact absurd hx (head_ne_aux (a := "- " ++ x) rfl ht (by decide))
          · simp only [List.mem_cons, List.not_mem_nil, or_false] at h
            exact absurd h.symm (empty_ne_of_head ht)
    · by_cases hwatch : r.what_to_watch_next.isEmpty = true
      · rw [if_pos hwatch] at h
        exact absurd h (List.not_mem_nil _)
      · rw [if_neg hwatch] at h
        right
        refine ⟨fun hemp => hwatch (by rw [hemp]; rfl), ?_⟩
        rcases List.mem_append.mp h with h | h
        · rcases List.mem_append.mp h with h | h
          · simp only [List.mem_cons, List.not_mem_nil, or_false] at h
            rcases h with h | h
            · exact h
            · exact absurd h.symm (empty_ne_of_head ht)
          · rw [List.mem_map] at h
            obtain ⟨x, _, hx⟩ := h
            exact absurd hx (head_ne_aux (a := "- " ++ x) rfl ht (by decide))
        · simp only [List.mem_cons, List.not_mem_nil, or_false] at h
          exact absurd h.symm (empty_ne_of_head ht)
  · intro h
    rcases h with ⟨hne, rfl⟩ | ⟨hne, rfl⟩
    · have hfalse : r.risks_uncertainties.isEmpty = false := by
        cases hl : r.risks_uncertainties with
        | nil => exact absurd hl hne
        | cons a l => rfl
      simp [reportLines, hfalse]
    · have hfalse : r.what_to_watch_next.isEmpty = false := by
        cases hl : r.what_to_watch_next with
        | nil => exact absurd hl hne
        | cons a l => rfl
      simp [reportLines, hfalse]

/-- C10 counterexample: the heading-presence equivalence fails as stated —
this report contains the "## Risks and uncertainties" heading line even
though its risks_uncertainties list is empty, because a section carries
that very title. -/
theorem report_markdown_counterexample :
    "## Risks and uncertainties" ∈ reportLines badReport
  ∧ badReport.risks_uncertainties = [] := by
  constructor
  · simp [reportLines, badReport, sectionLines]
  · rfl

/-- C10 amended: for every report whose executive summary is not itself one
of the two fixed heading lines and none of whose section titles collides
with them, the rendered lines start with the executive heading, contain one
heading per section in section order, and contain the risks and watch
headings exactly when the corresponding lists are non-empty. -/
theorem report_markdown_structure (r : DeepResearchReport)
    (hex1 : r.executive_summary ≠ "## Risks and uncertainties")
    (hex2 : r.executive_summary ≠ "## What to watch next")
    (hsec : ∀ s ∈ r.sections,
        s.title ≠ "Risks and uncertainties" ∧ s.title ≠ "What to watch next") :
    (reportLines r).head? = some "## Executive summary"
  ∧ (r.sections.map (fun s => "## " ++ s.title)).Sublist (reportLines r)
  ∧ ("## Risks and uncertainties" ∈ reportLines r ↔ r.risks_uncertainties ≠ [])
  ∧ ("## What to watch next" ∈ reportLines r ↔ r.what_to_watch_next ≠ []) := by
  refine ⟨rfl, ?_, ?_, ?_⟩
  · exact (heading_sublist r.sections).trans
      ((List.sublist_append_right _ _).trans
        ((List.sublist_append_left _ _).trans (List.sublist_append_left _ _)))
  · rw [heading_mem_reportLines r "## Risks and uncertainties" rfl (by decide)
      hex1.symm
      (fun s hs h => (hsec s hs).1
        (str_append_left_cancel (a := "## ") (b := "Risks and uncertainties")
          (c := s.title) h).symm)]
    constructor
    · rintro (⟨hne, _⟩ | ⟨_, habs⟩)
      · exact hne
      · exact absurd habs (by decide)
    · intro hne
      exact Or.inl ⟨hne, rfl⟩
  · rw [heading_mem_reportLines r "## What to watch next" rfl (by decide)
      hex2.symm
      (fun s hs h => (hsec s hs).2
        (str_append_left_cancel (a := "## ") (b := "What to watch next")
          (c := s.title) h).symm)]
    constructor
    · rintro (⟨_, habs⟩ | ⟨hne, _⟩)
      · exact absurd habs (by decide)
      · exact hne
    · intro hne
      exact Or.inr ⟨hne, rfl⟩

/-- C10 amended witness: the structure theorem evaluated on a concrete
collision-free report with a non-empty risks list and an empty watch list. -/
theorem report_markdown_structure_witness :
    (reportLines goodReport).head? = some "## Executive summary"
  ∧ ("## Risks and uncertainties" ∈ reportLines goodReport ↔
        goodReport.risks_uncertainties ≠ []) := by
  have h := report_markdown_structure goodReport (by decide) (by decide)
    (by intro s hs; simp [goodReport] at hs; simp [hs])
  exact ⟨h.1, h.2.2.1⟩
